import Mathlib

/-!
Shallow embedding of the lifecycle coordinator of `packages/core/src/application.ts`,
the migration script of `examples/todo/src/migrate.ts`, and the repository type guard
of `packages/repository/src/repositories/migrateable.repository.ts`.

JavaScript strings are embedded as Lean `String`; the JS relational operators
`<` / `>` on strings (lexicographic comparison by code unit) are embedded as the
lexicographic order on the underlying `List Char`, which coincides with the JS
order on all strings made of basic-plane characters.
-/

/-- Tag name `CoreBindings.LIFE_CYCLE_OBSERVER_TAG`. Modelled from the spec:
`keys.ts` is not part of the given sources; the spec calls this tag
"lifecycle-observer". -/
def LIFE_CYCLE_OBSERVER_TAG : String := "lifecycle-observer"

/-- Tag name `CoreBindings.SERVER_TAG`. Modelled from the spec: "server". -/
def SERVER_TAG : String := "server"

/-- Tag name `CoreBindings.COMPONENT_TAG`. Modelled from the spec: "component". -/
def COMPONENT_TAG : String := "component"

/-- Tag name `CoreBindings.CONTROLLER_TAG`. Modelled from the spec: "controller". -/
def CONTROLLER_TAG : String := "controller"

/-- Binding scope, following the spec's data model (section 3), which merges the
container's `BindingType.CONSTANT` into a three-valued scope
(transient | singleton | constant); `binding.type === BindingType.CONSTANT`
corresponds to `.constant` and `binding.scope === BindingScope.SINGLETON`
to `.singleton`. -/
inductive BindingScope where
  | transient
  | singleton
  | constant
deriving DecidableEq, Repr

/-- A registry binding: unique string key, scope, and a tag map from tag name to
tag value (`tagMap` in `@loopback/context`; absent tag = no entry). -/
structure Binding where
  key : String
  scope : BindingScope
  tagMap : List (String × String)
deriving DecidableEq, Repr

/-- Tag lookup `binding.tagMap[t]`: JS property read returning `undefined` (here `none`)
when the tag is absent. -/
def Binding.tagValue (b : Binding) (t : String) : Option String :=
  b.tagMap.lookup t

/-- The selection predicate of `Application._findLifeCycleObserverBindings`:
`(binding.type === BindingType.CONSTANT || binding.scope === BindingScope.SINGLETON) &&
 (binding.tagMap[LIFE_CYCLE_OBSERVER_TAG] != null || binding.tagMap[SERVER_TAG])`.
The first tag test is a JS `!= null` check (true for any present value, even `""`);
the second is a JS truthiness test (false for an absent tag and for the value `""`). -/
def lifeCycleObserverFilter (b : Binding) : Bool :=
  (b.scope == BindingScope.constant || b.scope == BindingScope.singleton) &&
  ((b.tagValue LIFE_CYCLE_OBSERVER_TAG).isSome ||
    (match b.tagValue SERVER_TAG with
     | some v => v != ""
     | none => false))

/-- The expression `b1.tagMap[SERVER_TAG] || ''`: the server-tag value with both an absent tag
(`undefined`) and the falsy value `""` collapsing to `""`. -/
def serverTagOrEmpty (b : Binding) : String :=
  (b.tagValue SERVER_TAG).getD ""

/-- The comparator of `Application._sortLifeCycleObserverBindings`:
`tag1 > tag2 ? 1 : tag1 < tag2 ? -1 : 0` on the server-tag values. -/
def lifeCycleCompare (b1 b2 : Binding) : Int :=
  let tag1 := serverTagOrEmpty b1
  let tag2 := serverTagOrEmpty b2
  if tag1.data > tag2.data then 1 else if tag1.data < tag2.data then -1 else 0

/-- The "b1 sorts no later than b2" relation induced by the comparator. -/
def lifeCycleLe (b1 b2 : Binding) : Prop :=
  lifeCycleCompare b1 b2 ≤ 0

instance : DecidableRel lifeCycleLe :=
  fun b1 b2 => inferInstanceAs (Decidable (lifeCycleCompare b1 b2 ≤ 0))

/-- Embedding of `Application._sortLifeCycleObserverBindings`: `bindings.sort(comparator)`.
ECMAScript `Array.prototype.sort` returns the stable sorted permutation of the
array under the comparator; for the total preorder induced by this comparator
that permutation is unique, and insertion sort computes it. -/
def sortLifeCycleObserverBindings (bindings : List Binding) : List Binding :=
  List.insertionSort lifeCycleLe bindings

/-- Embedding of `Application._findLifeCycleObserverBindings`: `this.find(predicate)` returns
the registry's bindings in registration (discovery) order restricted to the
predicate, and the result is then sorted. -/
def findLifeCycleObserverBindings (bindings : List Binding) : List Binding :=
  sortLifeCycleObserverBindings (bindings.filter lifeCycleObserverFilter)

/-- The lifecycle-relevant behavior of a resolved binding value. Modelled from
the spec: `lifecycle.ts` is not part of the given sources; the spec describes
`isLifeCycleObserver` as a call-time test whether the resolved value exposes the
lifecycle capability (`hasLifeCycle`), and `start`/`stop` as operations that
complete asynchronously with success or failure (embedded as `Except`). -/
structure LifeCycleBehavior where
  hasLifeCycle : Bool
  startResult : Except String Unit
  stopResult : Except String Unit

/-- The guard `isLifeCycleObserver(observer)`: call-time capability test. -/
def isLifeCycleObserver (o : LifeCycleBehavior) : Bool :=
  o.hasLifeCycle

/-- A registry snapshot: the bindings in discovery order, together with the
resolution `this.get(binding.key)` of each key to a live instance. -/
structure Registry where
  bindings : List Binding
  resolve : String → LifeCycleBehavior

/-- The sequential loop shared by `Application.start` and `Application.stop`:
for each binding, resolve it, test the capability, and if present invoke the
operation and await it. Returns the keys whose invocation completed
successfully, in invocation order, together with the first error (the loop
aborts at the first rejected invocation and propagates it unchanged). -/
def runLifeCycle (resolve : String → LifeCycleBehavior)
    (invoke : LifeCycleBehavior → Except String Unit) :
    List Binding → List String × Option String
  | [] => ([], none)
  | b :: rest =>
    let observer := resolve b.key
    if isLifeCycleObserver observer then
      match invoke observer with
      | .error e => ([], some e)
      | .ok _ =>
        let r := runLifeCycle resolve invoke rest
        (b.key :: r.1, r.2)
    else runLifeCycle resolve invoke rest

/-- Embedding of `Application.start`: iterate the sorted lifecycle bindings in order. -/
def Application.start (r : Registry) : List String × Option String :=
  runLifeCycle r.resolve (fun o => o.startResult)
    (findLifeCycleObserverBindings r.bindings)

/-- Embedding of `Application.stop`: same bindings, iterated in reverse order
(`bindings.reverse()`). -/
def Application.stop (r : Registry) : List String × Option String :=
  runLifeCycle r.resolve (fun o => o.stopResult)
    (findLifeCycleObserverBindings r.bindings).reverse

/-- Duplicate-key failure of the registry. Modelled from the spec: the registry
"enforces key uniqueness", so binding an already-bound key fails with a
duplicate-key error. -/
def duplicateKeyError (key : String) : String :=
  "duplicate binding key " ++ key

/-- The registration step `this.bind(key)` plus its chained configuration. Modelled from
the spec: `Context.bind` of `@loopback/context` is not part of the given
sources; per the spec's key-uniqueness invariant it fails on a key collision and
otherwise appends the new binding in discovery order. -/
def bindNew (bindings : List Binding) (b : Binding) : Except String (List Binding) :=
  if bindings.any (fun x => x.key == b.key) then .error (duplicateKeyError b.key)
  else .ok (bindings ++ [b])

/-- A controller class; only its name is observable here. -/
structure ControllerClass where
  name : String
deriving DecidableEq, Repr

/-- A server class; only its name is observable here. -/
structure ServerClass where
  name : String
deriving DecidableEq, Repr

/-- Effect of `.apply(asLifeCycleObserverBinding)` on a binding's tag map. Modelled from
the spec: `lifecycle.ts` is not part of the given sources; the spec says this
"applies lifecycle-observer wiring", i.e. tags the binding as a lifecycle
observer. A bare `.tag(t)` records tag name `t` in the tag map; the stored
value is not observable by any claim, so the tag name itself is used. -/
def asLifeCycleObserverBinding (tags : List (String × String)) : List (String × String) :=
  tags ++ [(LIFE_CYCLE_OBSERVER_TAG, LIFE_CYCLE_OBSERVER_TAG)]

/-- The binding `Application.controller` creates for a resolved name:
key `controllers.<name>`, default transient scope, tag `controller`. -/
def controllerBindingFor (nm : String) : Binding :=
  ⟨"controllers." ++ nm, .transient, [(CONTROLLER_TAG, CONTROLLER_TAG)]⟩

/-- The binding `Application.server` creates for a resolved name:
key `servers.<name>`, default transient scope, tag `server`, plus the
lifecycle-observer wiring. -/
def serverBindingFor (nm : String) : Binding :=
  ⟨"servers." ++ nm, .transient, asLifeCycleObserverBinding [(SERVER_TAG, SERVER_TAG)]⟩

/-- Embedding of `Application.controller(controllerCtor, name?)`:
`name = name || controllerCtor.name` and
`this.bind('controllers.' + name).toClass(ctor).tag(CONTROLLER_TAG)`.
`toClass` leaves the default transient scope. -/
def Application.controller (bindings : List Binding) (ctor : ControllerClass)
    (name : Option String) : Except String (List Binding × Binding) :=
  let b := controllerBindingFor (name.getD ctor.name)
  (bindNew bindings b).map (fun bs => (bs, b))

/-- Embedding of `Application.server(ctor, name?)`: `suffix = name || ctor.name` and
`this.bind('servers.' + suffix).toClass(ctor).tag(SERVER_TAG).apply(asLifeCycleObserverBinding)`. -/
def Application.server (bindings : List Binding) (ctor : ServerClass)
    (name : Option String) : Except String (List Binding × Binding) :=
  let b := serverBindingFor (name.getD ctor.name)
  (bindNew bindings b).map (fun bs => (bs, b))

/-- Embedding of `Application.servers(ctors)`: `ctors.map(ctor => this.server(ctor))` —
registers each constructor in order under its class name and collects the
created bindings in the same order (a thrown error aborts the rest). -/
def Application.servers (bindings : List Binding) :
    List ServerClass → Except String (List Binding × List Binding)
  | [] => .ok (bindings, [])
  | ctor :: rest =>
    match Application.server bindings ctor none with
    | .error e => .error e
    | .ok r =>
      match Application.servers r.1 rest with
      | .error e => .error e
      | .ok rr => .ok (rr.1, r.2 :: rr.2)

/-- The artifacts a resolved component instance declares (spec section 3:
"a value object holding optional arrays of controller classes, server classes,
and providers"; providers are not needed by any claim and are omitted). -/
structure ComponentDescriptor where
  controllers : List ControllerClass
  servers : List ServerClass
deriving Repr

/-- A component class: its name, whether `isLifeCycleObserverClass(ctor)` holds
(the class exposes the lifecycle capability), and its synchronous construction
(`getSync`), which either throws or yields the instance's declared artifacts. -/
structure ComponentClass where
  name : String
  isLifeCycleObserverClass : Bool
  construct : Except String ComponentDescriptor

/-- The controller part of `mountComponent(this, instance)`. Modelled from the
spec: `component.ts` is not part of the given sources; the spec says each
declared artifact delegates to the corresponding single-item registration
operation. -/
def mountControllers (bindings : List Binding) :
    List ControllerClass → Except String (List Binding)
  | [] => .ok bindings
  | ct :: rest =>
    match Application.controller bindings ct none with
    | .error e => .error e
    | .ok r => mountControllers r.1 rest

/-- The server part of `mountComponent(this, instance)`. Modelled from the spec,
as for `mountControllers`. -/
def mountServers (bindings : List Binding) :
    List ServerClass → Except String (List Binding)
  | [] => .ok bindings
  | sv :: rest =>
    match Application.server bindings sv none with
    | .error e => .error e
    | .ok r => mountServers r.1 rest

/-- Embedding of `mountComponent(this, instance)`. Modelled from the spec: registers the
declared controllers and servers through the single-item operations. -/
def mountComponent (bindings : List Binding) (inst : ComponentDescriptor) :
    Except String (List Binding) :=
  match mountControllers bindings inst.controllers with
  | .error e => .error e
  | .ok bs => mountServers bs inst.servers

/-- The binding `Application.component` creates for a resolved name:
key `components.<name>`, singleton scope, tag `component`, and the
lifecycle-observer wiring exactly when `isLifeCycleObserverClass(ctor)`. -/
def componentBindingFor (ctor : ComponentClass) (nm : String) : Binding :=
  ⟨"components." ++ nm, .singleton,
    if ctor.isLifeCycleObserverClass then
      asLifeCycleObserverBinding [(COMPONENT_TAG, COMPONENT_TAG)]
    else [(COMPONENT_TAG, COMPONENT_TAG)]⟩

/-- Embedding of `Application.component(componentCtor, name?)`:
`name = name || componentCtor.name`; bind `'components.' + name` with
`.toClass(ctor).inScope(SINGLETON).tag(COMPONENT_TAG)`; apply
`asLifeCycleObserverBinding` iff `isLifeCycleObserverClass(componentCtor)`;
resolve the instance synchronously (`getSync`, which throws if construction
throws) and mount it. -/
def Application.component (bindings : List Binding) (ctor : ComponentClass)
    (name : Option String) : Except String (List Binding) :=
  match bindNew bindings (componentBindingFor ctor (name.getD ctor.name)) with
  | .error e => .error e
  | .ok bs =>
    match ctor.construct with
    | .error e => .error e
    | .ok inst => mountComponent bs inst

/-- The query `this.find(predicate)`: the registered bindings matching the predicate, in
discovery order. -/
def Context.find (bindings : List Binding) (pred : Binding → Bool) : List Binding :=
  bindings.filter pred

/-- The options record `{dropExistingSchema}` that the first variant of
`migrate` passes to `app.migrateSchema` (the `SchemaMigrationOptions` of
`packages/repository/src/datasource.ts`). -/
structure DataSourceSchemaMigrationOptions where
  dropExistingSchema : Bool
deriving DecidableEq, Repr

/-- The options record `{rebuild}` that the second variant of `migrate` passes
to `app.migrateSchema` (the `SchemaMigrationOptions` of
`packages/repository/src/repositories/migrateable.repository.ts`). -/
structure RepositorySchemaMigrationOptions where
  rebuild : Bool
deriving DecidableEq, Repr

/-- First variant of `migrate(args)` in `examples/todo/src/migrate.ts`:
`const dropExistingSchema = args.includes('--rebuild')`, log
`rebuild`/`update` accordingly, and call
`app.migrateSchema({dropExistingSchema})`. Returns the logged mode and the
options record passed to `migrateSchema`. -/
def migrateV1 (args : List String) : String × DataSourceSchemaMigrationOptions :=
  let dropExistingSchema := args.contains "--rebuild"
  (if dropExistingSchema then "rebuild" else "update", ⟨dropExistingSchema⟩)

/-- Second variant of `migrate(args)` in `examples/todo/src/migrate.ts`:
`const rebuild = args.includes('--rebuild')` and
`app.migrateSchema({rebuild})`. -/
def migrateV2 (args : List String) : String × RepositorySchemaMigrationOptions :=
  let rebuild := args.contains "--rebuild"
  (if rebuild then "rebuild" else "update", ⟨rebuild⟩)

/-- A JavaScript value, as far as `isMigrateableRepository` can observe it:
`null`, `undefined`, a function, an object with its own properties, or another
primitive. -/
inductive JSValue where
  | jsNull
  | jsUndefined
  | jsFunction (id : Nat)
  | jsObject (props : List (String × JSValue))
  | jsPrim (s : String)

/-- JS property read `v.p`: throws a `TypeError` when `v` is `null` or
`undefined`; returns the own property (or `undefined` when absent) on an
object; returns `undefined` on other values, whose relevant prototypes expose
no `migrateSchema` member. -/
def getProperty : JSValue → String → Except String JSValue
  | .jsNull, p => .error ("TypeError: Cannot read property " ++ p ++ " of null")
  | .jsUndefined, p => .error ("TypeError: Cannot read property " ++ p ++ " of undefined")
  | .jsObject props, p => .ok ((props.lookup p).getD .jsUndefined)
  | .jsFunction _, _ => .ok .jsUndefined
  | .jsPrim _, _ => .ok .jsUndefined

/-- The test `typeof v === 'function'`. -/
def typeofIsFunction : JSValue → Bool
  | .jsFunction _ => true
  | _ => false

/-- Embedding of `isMigrateableRepository(repo)` of
`packages/repository/src/repositories/migrateable.repository.ts`:
`return typeof repo.migrateSchema === 'function'`. -/
def isMigrateableRepository (repo : JSValue) : Except String Bool :=
  (getProperty repo "migrateSchema").map typeofIsFunction

theorem lifeCycleLe_iff (b1 b2 : Binding) :
    lifeCycleLe b1 b2 ↔ (serverTagOrEmpty b1).data ≤ (serverTagOrEmpty b2).data := by
  unfold lifeCycleLe lifeCycleCompare
  dsimp only
  split_ifs with h1 h2
  · simp only [gt_iff_lt] at h1
    constructor
    · intro h; omega
    · intro h; exact absurd h1 (not_lt.mpr h)
  · constructor
    · intro _; exact le_of_lt h2
    · intro _; omega
  · simp only [gt_iff_lt, not_lt] at h1 h2
    constructor
    · intro _; exact h1
    · intro _; omega

instance : IsTotal Binding lifeCycleLe :=
  ⟨fun a b => by
    rw [lifeCycleLe_iff, lifeCycleLe_iff]
    exact le_total _ _⟩

instance : IsTrans Binding lifeCycleLe :=
  ⟨fun a b c hab hbc => by
    rw [lifeCycleLe_iff] at hab hbc ⊢
    exact le_trans hab hbc⟩

theorem data_le_nil {s : List Char} (h : s ≤ ([] : List Char)) : s = [] := by
  have : ([] : List Char) ≤ s := by
    cases s with
    | nil => exact le_refl _
    | cons x xs => exact le_of_lt (List.nil_lt_cons x xs)
  exact le_antisymm h this

theorem string_data_inj {a b : String} (h : a.data = b.data) : a = b := by
  cases a; cases b; exact congrArg String.mk h

theorem runLifeCycle_skip (resolve : String → LifeCycleBehavior)
    (invoke : LifeCycleBehavior → Except String Unit) (l : List Binding)
    (h : ∀ b ∈ l, isLifeCycleObserver (resolve b.key) = true →
      invoke (resolve b.key) = .ok ()) :
    runLifeCycle resolve invoke l =
      ((l.filter (fun b => isLifeCycleObserver (resolve b.key))).map Binding.key, none) := by
  induction l with
  | nil => rfl
  | cons b rest ih =>
    have hrest := ih (fun x hx => h x (List.mem_cons_of_mem b hx))
    by_cases hb : isLifeCycleObserver (resolve b.key) = true
    · have hinv := h b (List.mem_cons_self b rest) hb
      simp [runLifeCycle, hb, hinv, hrest, List.filter_cons]
    · have hb' : isLifeCycleObserver (resolve b.key) = false := by
        simpa using hb
      simp [runLifeCycle, hb', hrest, List.filter_cons]

theorem runLifeCycle_fail (resolve : String → LifeCycleBehavior)
    (invoke : LifeCycleBehavior → Except String Unit)
    (pre : List Binding) (b : Binding) (post : List Binding) (e : String)
    (hpre : ∀ x ∈ pre, isLifeCycleObserver (resolve x.key) = true ∧
      invoke (resolve x.key) = .ok ())
    (hb : isLifeCycleObserver (resolve b.key) = true)
    (he : invoke (resolve b.key) = .error e) :
    runLifeCycle resolve invoke (pre ++ b :: post) = (pre.map Binding.key, some e) := by
  induction pre with
  | nil => simp [runLifeCycle, hb, he]
  | cons x xs ih =>
    have hx := hpre x (List.mem_cons_self x xs)
    have hxs := ih (fun y hy => hpre y (List.mem_cons_of_mem x hy))
    simp [runLifeCycle, hx.1, hx.2, hxs]

theorem runLifeCycle_trace_sub (resolve : String → LifeCycleBehavior)
    (invoke : LifeCycleBehavior → Except String Unit) (l : List Binding) :
    ∀ k ∈ (runLifeCycle resolve invoke l).1, ∃ b ∈ l, b.key = k := by
  induction l with
  | nil => intro k hk; simp [runLifeCycle] at hk
  | cons b rest ih =>
    intro k hk
    simp only [runLifeCycle] at hk
    by_cases hb : isLifeCycleObserver (resolve b.key) = true
    · rw [if_pos hb] at hk
      cases hinv : invoke (resolve b.key) with
      | error e => rw [hinv] at hk; simp at hk
      | ok u =>
        rw [hinv] at hk
        simp only [List.mem_cons] at hk
        rcases hk with rfl | hk
        · exact ⟨b, List.mem_cons_self b rest, rfl⟩
        · rcases ih k hk with ⟨x, hx, hxe⟩
          exact ⟨x, List.mem_cons_of_mem b hx, hxe⟩
    · rw [if_neg hb] at hk
      rcases ih k hk with ⟨x, hx, hxe⟩
      exact ⟨x, List.mem_cons_of_mem b hx, hxe⟩

theorem lifeCycleObserverFilter_eq (b : Binding) :
    lifeCycleObserverFilter b =
      ((b.scope == BindingScope.constant || b.scope == BindingScope.singleton) &&
        ((b.tagValue LIFE_CYCLE_OBSERVER_TAG).isSome ||
          ((b.tagValue SERVER_TAG).getD "" != ""))) := by
  unfold lifeCycleObserverFilter
  cases b.tagValue SERVER_TAG <;> rfl

/-- The selection rule exactly as claim C1 states it: scope constant or
singleton, and the tag map contains a lifecycle-observer tag or a server tag,
a server tag with empty-string value included. -/
def claimedLifeCycleSelection (b : Binding) : Bool :=
  (b.scope == BindingScope.constant || b.scope == BindingScope.singleton) &&
  ((b.tagValue LIFE_CYCLE_OBSERVER_TAG).isSome || (b.tagValue SERVER_TAG).isSome)

/-- A singleton binding whose only relevant tag is a server tag with the empty
string as its value. -/
def emptyServerTagBinding : Binding :=
  ⟨"servers.empty", .singleton, [("server", "")]⟩

/-- A registry holding only `emptyServerTagBinding`, resolving every key to a
lifecycle-capable instance whose operations succeed. -/
def emptyServerTagRegistry : Registry :=
  ⟨[emptyServerTagBinding], fun _ => ⟨true, .ok (), .ok ()⟩⟩

instance {ε α : Type} [DecidableEq ε] [DecidableEq α] : DecidableEq (Except ε α) :=
  fun a b =>
  match a, b with
  | .error e1, .error e2 =>
    if h : e1 = e2 then isTrue (congrArg Except.error h)
    else isFalse (fun hc => Except.noConfusion hc (fun he => h he))
  | .error _, .ok _ => isFalse (fun hc => Except.noConfusion hc)
  | .ok _, .error _ => isFalse (fun hc => Except.noConfusion hc)
  | .ok a1, .ok a2 =>
    if h : a1 = a2 then isTrue (congrArg Except.ok h)
    else isFalse (fun hc => Except.noConfusion hc (fun ha => h ha))

theorem scope_ne_transient {b : Binding} (h : lifeCycleObserverFilter b = true) :
    b.scope ≠ BindingScope.transient := by
  intro hs
  unfold lifeCycleObserverFilter at h
  rw [hs] at h
  simp at h

theorem string_le_iff_data {a b : String} : a ≤ b ↔ a.data ≤ b.data := by
  rw [String.le_iff_toList_le]
  exact Iff.rfl

/-- Scenario bindings from the spec (section 8): `A` a singleton lifecycle
observer with no server tag, `B` and `C` singleton servers tagged `v1` and
`v2`, `D` a transient binding tagged `server="v0"`. -/
def observerA : Binding :=
  ⟨"observers.A", .singleton, [("lifecycle-observer", "lifecycle-observer")]⟩

/-- Scenario binding `B`: singleton, tag `server="v1"`. -/
def serverB : Binding := ⟨"servers.B", .singleton, [("server", "v1")]⟩

/-- Scenario binding `C`: singleton, tag `server="v2"`. -/
def serverC : Binding := ⟨"servers.C", .singleton, [("server", "v2")]⟩

/-- Scenario binding `D`: transient, tag `server="v0"`. -/
def transientD : Binding := ⟨"x.D", .transient, [("server", "v0")]⟩

/-- A lifecycle-capable instance whose operations succeed. -/
def allOkBehavior : LifeCycleBehavior := ⟨true, .ok (), .ok ()⟩

/-- The scenario registry with discovery order C, D, B, A and all instances
capable and successful. -/
def scenarioRegistry : Registry :=
  ⟨[serverC, transientD, serverB, observerA], fun _ => allOkBehavior⟩

/-- C1 counterexample: a singleton binding whose tag map holds a server tag
with the empty string as value satisfies the claim's selection rule, yet
`_findLifeCycleObserverBindings` does not select it — the JS truthiness test
`binding.tagMap[SERVER_TAG]` rejects the falsy value `""` — and neither
`start()` nor `stop()` invokes it. -/
theorem start_stop_selection_counterexample :
    claimedLifeCycleSelection emptyServerTagBinding = true ∧
    lifeCycleObserverFilter emptyServerTagBinding = false ∧
    findLifeCycleObserverBindings emptyServerTagRegistry.bindings = [] ∧
    Application.start emptyServerTagRegistry = ([], none) ∧
    Application.stop emptyServerTagRegistry = ([], none) :=
  ⟨rfl, rfl, by decide, by decide, by decide⟩

/-- C1 (amended): for every registry state, `start()` and `stop()` select
exactly the bindings whose scope is constant or singleton and whose tag map
contains either a lifecycle-observer tag or a server tag with a non-empty
(truthy) value — a server tag whose value is the empty string does not select a
binding — and transient-scoped bindings, even when tagged as lifecycle
observers, are never invoked by either operation. -/
theorem start_stop_selection (r : Registry) :
    (findLifeCycleObserverBindings r.bindings).Perm
      (r.bindings.filter (fun b =>
        (b.scope == BindingScope.constant || b.scope == BindingScope.singleton) &&
        ((b.tagValue LIFE_CYCLE_OBSERVER_TAG).isSome ||
          ((b.tagValue SERVER_TAG).getD "" != "")))) ∧
    (∀ b ∈ findLifeCycleObserverBindings r.bindings, b.scope ≠ BindingScope.transient) ∧
    (∀ k ∈ (Application.start r).1, ∃ b ∈ findLifeCycleObserverBindings r.bindings,
      b.key = k ∧ b.scope ≠ BindingScope.transient) ∧
    (∀ k ∈ (Application.stop r).1, ∃ b ∈ findLifeCycleObserverBindings r.bindings,
      b.key = k ∧ b.scope ≠ BindingScope.transient) := by
  have hmem : ∀ b ∈ findLifeCycleObserverBindings r.bindings,
      lifeCycleObserverFilter b = true := by
    intro b hb
    have hb' : b ∈ r.bindings.filter lifeCycleObserverFilter :=
      (List.mem_insertionSort lifeCycleLe).mp hb
    exact (List.mem_filter.mp hb').2
  refine ⟨?_, ?_, ?_, ?_⟩
  · have hperm : (findLifeCycleObserverBindings r.bindings).Perm
        (r.bindings.filter lifeCycleObserverFilter) :=
      List.perm_insertionSort lifeCycleLe _
    have heq : r.bindings.filter lifeCycleObserverFilter =
        r.bindings.filter (fun b =>
          (b.scope == BindingScope.constant || b.scope == BindingScope.singleton) &&
          ((b.tagValue LIFE_CYCLE_OBSERVER_TAG).isSome ||
            ((b.tagValue SERVER_TAG).getD "" != ""))) :=
      List.filter_congr (fun a _ => lifeCycleObserverFilter_eq a)
    exact heq ▸ hperm
  · exact fun b hb => scope_ne_transient (hmem b hb)
  · intro k hk
    rcases runLifeCycle_trace_sub r.resolve (fun o => o.startResult)
      (findLifeCycleObserverBindings r.bindings) k hk with ⟨b, hb, hbk⟩
    exact ⟨b, hb, hbk, scope_ne_transient (hmem b hb)⟩
  · intro k hk
    rcases runLifeCycle_trace_sub r.resolve (fun o => o.stopResult)
      (findLifeCycleObserverBindings r.bindings).reverse k hk with ⟨b, hb, hbk⟩
    have hb' := List.mem_reverse.mp hb
    exact ⟨b, hb', hbk, scope_ne_transient (hmem b hb')⟩

/-- C1 witness: the amended selection applied to the concrete scenario
registry; the lifecycle observer `A` is selected and is not transient. -/
theorem start_stop_selection_witness :
    (findLifeCycleObserverBindings scenarioRegistry.bindings).Perm
      (scenarioRegistry.bindings.filter (fun b =>
        (b.scope == BindingScope.constant || b.scope == BindingScope.singleton) &&
        ((b.tagValue LIFE_CYCLE_OBSERVER_TAG).isSome ||
          ((b.tagValue SERVER_TAG).getD "" != "")))) ∧
    observerA.scope ≠ BindingScope.transient :=
  ⟨(start_stop_selection scenarioRegistry).1,
   (start_stop_selection scenarioRegistry).2.1 observerA (by decide)⟩

/-- C2: when every selected binding resolves to a capable instance whose start
succeeds, `start()` succeeds and invokes exactly the sorted bindings in order;
the sorted sequence is non-decreasing in the server-tag value (absent tag =
empty string), ties keep discovery order (stability), and no binding with a
non-empty server tag precedes one with an empty server tag, so all empty-tag
observers are invoked before any server-tagged observer and the server-tagged
observers are invoked in ascending lexicographic order of their tag value. -/
theorem start_invocation_order (r : Registry)
    (hok : ∀ b ∈ findLifeCycleObserverBindings r.bindings,
      isLifeCycleObserver (r.resolve b.key) = true ∧
        (r.resolve b.key).startResult = .ok ()) :
    (Application.start r).2 = none ∧
    (Application.start r).1 = (findLifeCycleObserverBindings r.bindings).map Binding.key ∧
    (findLifeCycleObserverBindings r.bindings).Pairwise
      (fun b1 b2 => serverTagOrEmpty b1 ≤ serverTagOrEmpty b2) ∧
    (∀ b1 b2, [b1, b2].Sublist (r.bindings.filter lifeCycleObserverFilter) →
      serverTagOrEmpty b1 = serverTagOrEmpty b2 →
      [b1, b2].Sublist (findLifeCycleObserverBindings r.bindings)) ∧
    (∀ b1 b2, [b1, b2].Sublist (findLifeCycleObserverBindings r.bindings) →
      serverTagOrEmpty b2 = "" → serverTagOrEmpty b1 = "") := by
  have hrun := runLifeCycle_skip r.resolve (fun o => o.startResult)
    (findLifeCycleObserverBindings r.bindings) (fun b hb _ => (hok b hb).2)
  have hfilter : (findLifeCycleObserverBindings r.bindings).filter
      (fun b => isLifeCycleObserver (r.resolve b.key)) =
      findLifeCycleObserverBindings r.bindings :=
    List.filter_eq_self.mpr (fun b hb => (hok b hb).1)
  have hpair : (findLifeCycleObserverBindings r.bindings).Pairwise
      (fun b1 b2 => serverTagOrEmpty b1 ≤ serverTagOrEmpty b2) := by
    have hs := List.sorted_insertionSort lifeCycleLe
      (r.bindings.filter lifeCycleObserverFilter)
    exact hs.imp (fun hab => string_le_iff_data.mpr ((lifeCycleLe_iff _ _).mp hab))
  refine ⟨?_, ?_, hpair, ?_, ?_⟩
  · show (runLifeCycle r.resolve (fun o => o.startResult)
      (findLifeCycleObserverBindings r.bindings)).2 = none
    rw [hrun]
  · show (runLifeCycle r.resolve (fun o => o.startResult)
      (findLifeCycleObserverBindings r.bindings)).1 = _
    rw [hrun, hfilter]
  · intro b1 b2 hsub heq
    have hab : lifeCycleLe b1 b2 := (lifeCycleLe_iff b1 b2).mpr (le_of_eq (by rw [heq]))
    exact List.pair_sublist_insertionSort hab hsub
  · intro b1 b2 hsub h2
    have hle : serverTagOrEmpty b1 ≤ serverTagOrEmpty b2 :=
      List.rel_of_pairwise_cons (hpair.sublist hsub) (List.mem_singleton_self _)
    rw [h2] at hle
    have hdata : (serverTagOrEmpty b1).data ≤ ([] : List Char) :=
      string_le_iff_data.mp hle
    exact string_data_inj (data_le_nil hdata)

/-- C2 witness: in the scenario registry (discovery order C, D, B, A) the
start order is A, B, C. -/
theorem start_invocation_order_witness :
    (Application.start scenarioRegistry).1 =
      ["observers.A", "servers.B", "servers.C"] ∧
    (Application.start scenarioRegistry).2 = none :=
  have h := start_invocation_order scenarioRegistry (fun _ _ => ⟨rfl, rfl⟩)
  ⟨h.2.1.trans (by decide), h.1⟩

/-- C3: for a fixed registry snapshot whose capable instances all start and
stop successfully, `stop()` invokes bindings in exactly the reverse of the
order `start()` used, and both operations succeed. -/
theorem stop_reverses_start_order (r : Registry)
    (hok : ∀ b ∈ findLifeCycleObserverBindings r.bindings,
      isLifeCycleObserver (r.resolve b.key) = true →
        (r.resolve b.key).startResult = .ok () ∧ (r.resolve b.key).stopResult = .ok ()) :
    (Application.stop r).1 = ((Application.start r).1).reverse ∧
    (Application.start r).2 = none ∧ (Application.stop r).2 = none := by
  have hstart := runLifeCycle_skip r.resolve (fun o => o.startResult)
    (findLifeCycleObserverBindings r.bindings)
    (fun b hb hcap => (hok b hb hcap).1)
  have hstop := runLifeCycle_skip r.resolve (fun o => o.stopResult)
    (findLifeCycleObserverBindings r.bindings).reverse
    (fun b hb hcap => (hok b (List.mem_reverse.mp hb) hcap).2)
  refine ⟨?_, ?_, ?_⟩
  · show (runLifeCycle r.resolve (fun o => o.stopResult)
      (findLifeCycleObserverBindings r.bindings).reverse).1 = _
    rw [hstop]
    show _ = (runLifeCycle r.resolve (fun o => o.startResult)
      (findLifeCycleObserverBindings r.bindings)).1.reverse
    rw [hstart]
    rw [List.filter_reverse, List.map_reverse]
  · show (runLifeCycle r.resolve (fun o => o.startResult)
      (findLifeCycleObserverBindings r.bindings)).2 = none
    rw [hstart]
  · show (runLifeCycle r.resolve (fun o => o.stopResult)
      (findLifeCycleObserverBindings r.bindings).reverse).2 = none
    rw [hstop]

/-- C3 witness: in the scenario registry, the stop trace is the reverse of the
start trace. -/
theorem stop_reverses_start_order_witness :
    (Application.stop scenarioRegistry).1 =
      ((Application.start scenarioRegistry).1).reverse :=
  (stop_reverses_start_order scenarioRegistry (fun _ _ _ => ⟨rfl, rfl⟩)).1

/-- C4: if the sorted sequence decomposes as `pre ++ b :: post`, every binding
of `pre` resolves to a capable instance whose start succeeds, and `b` resolves
to a capable instance whose start rejects with `e`, then `start()` reports
exactly the bindings of `pre` as started (those after `b` are never invoked)
and propagates `e` unchanged; `stop()` has the same sequential fail-fast
semantics over the reversed sequence. -/
theorem start_fail_fast (r : Registry) (pre post pre2 post2 : List Binding)
    (b b2 : Binding) (e e2 : String) :
    (findLifeCycleObserverBindings r.bindings = pre ++ b :: post →
      (∀ x ∈ pre, isLifeCycleObserver (r.resolve x.key) = true ∧
        (r.resolve x.key).startResult = .ok ()) →
      isLifeCycleObserver (r.resolve b.key) = true →
      (r.resolve b.key).startResult = .error e →
      Application.start r = (pre.map Binding.key, some e)) ∧
    ((findLifeCycleObserverBindings r.bindings).reverse = pre2 ++ b2 :: post2 →
      (∀ x ∈ pre2, isLifeCycleObserver (r.resolve x.key) = true ∧
        (r.resolve x.key).stopResult = .ok ()) →
      isLifeCycleObserver (r.resolve b2.key) = true →
      (r.resolve b2.key).stopResult = .error e2 →
      Application.stop r = (pre2.map Binding.key, some e2)) := by
  constructor
  · intro hdecomp hpre hb he
    show runLifeCycle r.resolve (fun o => o.startResult)
      (findLifeCycleObserverBindings r.bindings) = _
    rw [hdecomp]
    exact runLifeCycle_fail r.resolve (fun o => o.startResult) pre b post e hpre hb he
  · intro hdecomp hpre hb he
    show runLifeCycle r.resolve (fun o => o.stopResult)
      (findLifeCycleObserverBindings r.bindings).reverse = _
    rw [hdecomp]
    exact runLifeCycle_fail r.resolve (fun o => o.stopResult) pre2 b2 post2 e2 hpre hb he

/-- Resolution for the fail-fast witness: `B`'s start rejects with "boom",
`C`'s stop rejects with "halt", everything else succeeds. -/
def failingResolve : String → LifeCycleBehavior := fun key =>
  if key == "servers.B" then ⟨true, .error "boom", .ok ()⟩
  else if key == "servers.C" then ⟨true, .ok (), .error "halt"⟩
  else ⟨true, .ok (), .ok ()⟩

/-- Registry for the fail-fast witness (start order A, B, C). -/
def failingRegistry : Registry := ⟨[serverC, serverB, observerA], failingResolve⟩

/-- C4 witness: with start order A, B, C, a failure of `B.start` leaves exactly
`A` started and propagates "boom"; a failure of `C.stop` (first in stop order)
leaves nothing stopped and propagates "halt". -/
theorem start_fail_fast_witness :
    Application.start failingRegistry = (["observers.A"], some "boom") ∧
    Application.stop failingRegistry = ([], some "halt") := by
  have h := start_fail_fast failingRegistry [observerA] [serverC] []
    [serverB, observerA] serverB serverC "boom" "halt"
  refine ⟨h.1 (by decide) ?_ rfl rfl, h.2 (by decide) ?_ rfl rfl⟩
  · intro x hx
    rcases List.mem_singleton.mp hx with rfl
    exact ⟨rfl, rfl⟩
  · intro x hx
    simp at hx

/-- C5: for each selected binding in sorted order, `start()` (and `stop()`)
resolves it and tests the lifecycle capability at call time: exactly the
capable instances are invoked, in order, and resolved instances lacking the
capability are skipped silently, without error. -/
theorem capability_gated_invocation (r : Registry)
    (hstart : ∀ b ∈ findLifeCycleObserverBindings r.bindings,
      isLifeCycleObserver (r.resolve b.key) = true →
        (r.resolve b.key).startResult = .ok ())
    (hstop : ∀ b ∈ findLifeCycleObserverBindings r.bindings,
      isLifeCycleObserver (r.resolve b.key) = true →
        (r.resolve b.key).stopResult = .ok ()) :
    Application.start r =
      (((findLifeCycleObserverBindings r.bindings).filter
        (fun b => isLifeCycleObserver (r.resolve b.key))).map Binding.key, none) ∧
    Application.stop r =
      ((((findLifeCycleObserverBindings r.bindings).reverse).filter
        (fun b => isLifeCycleObserver (r.resolve b.key))).map Binding.key, none) :=
  ⟨runLifeCycle_skip r.resolve (fun o => o.startResult) _ hstart,
   runLifeCycle_skip r.resolve (fun o => o.stopResult) _
     (fun b hb => hstop b (List.mem_reverse.mp hb))⟩

/-- An instance that does not expose the lifecycle capability; its operation
fields are never invoked. -/
def passiveBehavior : LifeCycleBehavior := ⟨false, .error "unused", .error "unused"⟩

/-- Resolution for the capability witness: `B` resolves to a passive instance,
everything else is capable and succeeds. -/
def mixedResolve : String → LifeCycleBehavior := fun key =>
  if key == "servers.B" then passiveBehavior else allOkBehavior

/-- Registry for the capability witness (start order A, B). -/
def mixedRegistry : Registry := ⟨[serverB, observerA], mixedResolve⟩

/-- C5 witness: the passive instance `B` is skipped silently; only `A` is
invoked and no error is reported, in both directions. -/
theorem capability_gated_invocation_witness :
    Application.start mixedRegistry = (["observers.A"], none) ∧
    Application.stop mixedRegistry = (["observers.A"], none) := by
  have h := capability_gated_invocation mixedRegistry (by decide) (by decide)
  exact ⟨h.1.trans (by decide), h.2.trans (by decide)⟩

theorem except_map_ok {α β γ : Type} {f : α → β} {x : Except γ α} {b : β}
    (h : x.map f = .ok b) : ∃ a, x = .ok a ∧ f a = b := by
  cases x with
  | error e => simp [Except.map] at h
  | ok a =>
    refine ⟨a, rfl, ?_⟩
    simpa [Except.map] using h

theorem bindNew_ok {bs bs' : List Binding} {b : Binding}
    (h : bindNew bs b = .ok bs') : bs' = bs ++ [b] := by
  unfold bindNew at h
  split_ifs at h
  exact (Except.ok.inj h).symm

theorem bindNew_error_of_key {bs : List Binding} {b x : Binding} (hx : x ∈ bs)
    (hk : x.key = b.key) : bindNew bs b = .error (duplicateKeyError b.key) := by
  have hany : bs.any (fun y => y.key == b.key) = true :=
    List.any_eq_true.mpr ⟨x, hx, by rw [hk]; exact beq_self_eq_true _⟩
  simp [bindNew, hany]

theorem bindNew_ok_of_fresh {bs : List Binding} {b : Binding}
    (h : ∀ x ∈ bs, x.key ≠ b.key) : bindNew bs b = .ok (bs ++ [b]) := by
  have hany : bs.any (fun y => y.key == b.key) = false := by
    rw [List.any_eq_false]
    intro x hx
    simpa using h x hx
  simp [bindNew, hany]

theorem controller_ok {bs : List Binding} {ct : ControllerClass} {nm : Option String}
    {p : List Binding × Binding} (h : Application.controller bs ct nm = .ok p) :
    p = (bs ++ [controllerBindingFor (nm.getD ct.name)],
      controllerBindingFor (nm.getD ct.name)) := by
  unfold Application.controller at h
  rcases except_map_ok h with ⟨bs2, hbn, hf⟩
  rw [← hf, bindNew_ok hbn]

theorem server_ok {bs : List Binding} {sv : ServerClass} {nm : Option String}
    {p : List Binding × Binding} (h : Application.server bs sv nm = .ok p) :
    p = (bs ++ [serverBindingFor (nm.getD sv.name)],
      serverBindingFor (nm.getD sv.name)) := by
  unfold Application.server at h
  rcases except_map_ok h with ⟨bs2, hbn, hf⟩
  rw [← hf, bindNew_ok hbn]

theorem mountControllers_ok {l : List ControllerClass} :
    ∀ {bs bs' : List Binding}, mountControllers bs l = .ok bs' →
      (∀ x ∈ bs, x ∈ bs') ∧ (∀ ct ∈ l, controllerBindingFor ct.name ∈ bs') := by
  induction l with
  | nil =>
    intro bs bs' h
    cases Except.ok.inj h
    exact ⟨fun x hx => hx, fun ct hct => absurd hct (List.not_mem_nil ct)⟩
  | cons ct rest ih =>
    intro bs bs' h
    unfold mountControllers at h
    cases hc : Application.controller bs ct none with
    | error e => rw [hc] at h; exact Except.noConfusion h
    | ok p =>
      rw [hc] at h
      have hp := controller_ok hc
      have hp1 : p.1 = bs ++ [controllerBindingFor ct.name] := by simp [hp]
      rcases ih h with ⟨hmono, hmem⟩
      constructor
      · intro x hx
        exact hmono x (by rw [hp1]; exact List.mem_append_left _ hx)
      · intro c hc2
        rcases List.mem_cons.mp hc2 with rfl | hc3
        · exact hmono _ (by rw [hp1]; exact List.mem_append_right _ (List.mem_singleton_self _))
        · exact hmem c hc3

theorem mountServers_ok {l : List ServerClass} :
    ∀ {bs bs' : List Binding}, mountServers bs l = .ok bs' →
      (∀ x ∈ bs, x ∈ bs') ∧ (∀ sv ∈ l, serverBindingFor sv.name ∈ bs') := by
  induction l with
  | nil =>
    intro bs bs' h
    cases Except.ok.inj h
    exact ⟨fun x hx => hx, fun sv hsv => absurd hsv (List.not_mem_nil sv)⟩
  | cons sv rest ih =>
    intro bs bs' h
    unfold mountServers at h
    cases hc : Application.server bs sv none with
    | error e => rw [hc] at h; exact Except.noConfusion h
    | ok p =>
      rw [hc] at h
      have hp := server_ok hc
      have hp1 : p.1 = bs ++ [serverBindingFor sv.name] := by simp [hp]
      rcases ih h with ⟨hmono, hmem⟩
      constructor
      · intro x hx
        exact hmono x (by rw [hp1]; exact List.mem_append_left _ hx)
      · intro c hc2
        rcases List.mem_cons.mp hc2 with rfl | hc3
        · exact hmono _ (by rw [hp1]; exact List.mem_append_right _ (List.mem_singleton_self _))
        · exact hmem c hc3

theorem mountComponent_ok {bs bs' : List Binding} {desc : ComponentDescriptor}
    (h : mountComponent bs desc = .ok bs') :
    (∀ x ∈ bs, x ∈ bs') ∧
    (∀ ct ∈ desc.controllers, controllerBindingFor ct.name ∈ bs') ∧
    (∀ sv ∈ desc.servers, serverBindingFor sv.name ∈ bs') := by
  unfold mountComponent at h
  cases hc : mountControllers bs desc.controllers with
  | error e => rw [hc] at h; exact Except.noConfusion h
  | ok bs1 =>
    rw [hc] at h
    rcases mountControllers_ok hc with ⟨hm1, hmem1⟩
    rcases mountServers_ok h with ⟨hm2, hmem2⟩
    exact ⟨fun x hx => hm2 _ (hm1 x hx), fun ct hct => hm2 _ (hmem1 ct hct), hmem2⟩

theorem component_parts {bs bs' : List Binding} {ctor : ComponentClass}
    {nm : Option String} (h : Application.component bs ctor nm = .ok bs') :
    ∃ desc, ctor.construct = .ok desc ∧
      mountComponent (bs ++ [componentBindingFor ctor (nm.getD ctor.name)]) desc =
        .ok bs' := by
  unfold Application.component at h
  cases hb : bindNew bs (componentBindingFor ctor (nm.getD ctor.name)) with
  | error e => rw [hb] at h; exact Except.noConfusion h
  | ok bs1 =>
    rw [hb] at h
    cases hc : ctor.construct with
    | error e => rw [hc] at h; exact Except.noConfusion h
    | ok desc =>
      rw [hc] at h
      cases bindNew_ok hb
      exact ⟨desc, rfl, h⟩

theorem controllerBindingFor_key (nm : String) :
    (controllerBindingFor nm).key = "controllers." ++ nm := rfl

theorem serverBindingFor_key (nm : String) :
    (serverBindingFor nm).key = "servers." ++ nm := rfl

theorem serverBindingFor_server_tag (nm : String) :
    ((serverBindingFor nm).tagValue SERVER_TAG).isSome = true := rfl

theorem serverBindingFor_lifecycle_tag (nm : String) :
    ((serverBindingFor nm).tagValue LIFE_CYCLE_OBSERVER_TAG).isSome = true := rfl

theorem componentBindingFor_key (ctor : ComponentClass) (nm : String) :
    (componentBindingFor ctor nm).key = "components." ++ nm := rfl

theorem componentBindingFor_scope (ctor : ComponentClass) (nm : String) :
    (componentBindingFor ctor nm).scope = BindingScope.singleton := rfl

theorem componentBindingFor_component_tag (ctor : ComponentClass) (nm : String) :
    ((componentBindingFor ctor nm).tagValue COMPONENT_TAG).isSome = true := by
  cases h : ctor.isLifeCycleObserverClass <;> (unfold componentBindingFor; rw [h]) <;> rfl

theorem componentBindingFor_lifecycle_tag (ctor : ComponentClass) (nm : String) :
    ((componentBindingFor ctor nm).tagValue LIFE_CYCLE_OBSERVER_TAG).isSome =
      ctor.isLifeCycleObserverClass := by
  cases h : ctor.isLifeCycleObserverClass <;> (unfold componentBindingFor; rw [h]) <;> rfl

theorem mountControllers_collide {l : List ControllerClass} :
    ∀ {bs : List Binding},
      (∃ ct ∈ l, ∃ x ∈ bs, x.key = "controllers." ++ ct.name) →
      ∃ e, mountControllers bs l = .error e := by
  induction l with
  | nil =>
    intro bs h
    rcases h with ⟨ct, hct, _⟩
    exact absurd hct (List.not_mem_nil ct)
  | cons ct rest ih =>
    intro bs h
    cases hc : Application.controller bs ct none with
    | error e =>
      exact ⟨e, by unfold mountControllers; rw [hc]⟩
    | ok p =>
      have hp := controller_ok hc
      have hp1 : p.1 = bs ++ [controllerBindingFor ct.name] := by simp [hp]
      rcases h with ⟨c, hcmem, x, hx, hk⟩
      rcases List.mem_cons.mp hcmem with rfl | hrest
      · exfalso
        unfold Application.controller at hc
        rcases except_map_ok hc with ⟨bs2, hbn, _⟩
        rw [bindNew_error_of_key hx hk] at hbn
        exact Except.noConfusion hbn
      · rcases @ih p.1 ⟨c, hrest, x, by rw [hp1]; exact List.mem_append_left _ hx, hk⟩ with
          ⟨e, he⟩
        exact ⟨e, by unfold mountControllers; rw [hc]; exact he⟩

theorem mountServers_collide {l : List ServerClass} :
    ∀ {bs : List Binding},
      (∃ sv ∈ l, ∃ x ∈ bs, x.key = "servers." ++ sv.name) →
      ∃ e, mountServers bs l = .error e := by
  induction l with
  | nil =>
    intro bs h
    rcases h with ⟨sv, hsv, _⟩
    exact absurd hsv (List.not_mem_nil sv)
  | cons sv rest ih =>
    intro bs h
    cases hc : Application.server bs sv none with
    | error e =>
      exact ⟨e, by unfold mountServers; rw [hc]⟩
    | ok p =>
      have hp := server_ok hc
      have hp1 : p.1 = bs ++ [serverBindingFor sv.name] := by simp [hp]
      rcases h with ⟨c, hcmem, x, hx, hk⟩
      rcases List.mem_cons.mp hcmem with rfl | hrest
      · exfalso
        unfold Application.server at hc
        rcases except_map_ok hc with ⟨bs2, hbn, _⟩
        rw [bindNew_error_of_key hx hk] at hbn
        exact Except.noConfusion hbn
      · rcases @ih p.1 ⟨c, hrest, x, by rw [hp1]; exact List.mem_append_left _ hx, hk⟩ with
          ⟨e, he⟩
        exact ⟨e, by unfold mountServers; rw [hc]; exact he⟩

theorem mountComponent_collide {bs : List Binding} {desc : ComponentDescriptor}
    (h : (∃ ct ∈ desc.controllers, ∃ x ∈ bs, x.key = "controllers." ++ ct.name) ∨
      (∃ sv ∈ desc.servers, ∃ x ∈ bs, x.key = "servers." ++ sv.name)) :
    ∃ e, mountComponent bs desc = .error e := by
  cases h with
  | inl hc =>
    rcases mountControllers_collide hc with ⟨e, he⟩
    exact ⟨e, by unfold mountComponent; rw [he]⟩
  | inr hs =>
    cases hmc : mountControllers bs desc.controllers with
    | error e => exact ⟨e, by unfold mountComponent; rw [hmc]⟩
    | ok bs1 =>
      rcases mountControllers_ok hmc with ⟨hmono, _⟩
      rcases hs with ⟨sv, hsv, x, hx, hk⟩
      rcases mountServers_collide ⟨sv, hsv, x, hmono x hx, hk⟩ with ⟨e, he⟩
      exact ⟨e, by unfold mountComponent; rw [hmc]; exact he⟩

/-- C6: a successful `component(ctor, name?)` call has bound the component
under key `components.<name or ctor.name>` as a singleton binding tagged
"component", carrying the lifecycle-observer tag iff the component class
exposes the lifecycle capability; the synchronous construction succeeded
(yielding the declared artifacts), and each declared controller and server is
mounted through the corresponding single-item registration operation. -/
theorem component_registration (bs : List Binding) (ctor : ComponentClass)
    (nm : Option String) (bs' : List Binding)
    (h : Application.component bs ctor nm = .ok bs') :
    (∃ b ∈ bs', b.key = "components." ++ (nm.getD ctor.name) ∧
      b.scope = BindingScope.singleton ∧
      (b.tagValue COMPONENT_TAG).isSome = true ∧
      ((b.tagValue LIFE_CYCLE_OBSERVER_TAG).isSome = true ↔
        ctor.isLifeCycleObserverClass = true)) ∧
    ∃ desc, ctor.construct = .ok desc ∧
      (∀ ct ∈ desc.controllers, ∃ b2 ∈ bs', b2.key = "controllers." ++ ct.name) ∧
      (∀ sv ∈ desc.servers, ∃ b2 ∈ bs', b2.key = "servers." ++ sv.name ∧
        (b2.tagValue SERVER_TAG).isSome = true ∧
        (b2.tagValue LIFE_CYCLE_OBSERVER_TAG).isSome = true) := by
  rcases component_parts h with ⟨desc, hcon, hmount⟩
  rcases mountComponent_ok hmount with ⟨hmono, hctrl, hsrv⟩
  constructor
  · refine ⟨componentBindingFor ctor (nm.getD ctor.name),
      hmono _ (List.mem_append_right _ (List.mem_singleton_self _)),
      componentBindingFor_key ctor _, componentBindingFor_scope ctor _,
      componentBindingFor_component_tag ctor _, ?_⟩
    rw [componentBindingFor_lifecycle_tag]
  · refine ⟨desc, hcon, ?_, ?_⟩
    · intro ct hct
      exact ⟨controllerBindingFor ct.name, hctrl ct hct, controllerBindingFor_key ct.name⟩
    · intro sv hsv
      exact ⟨serverBindingFor sv.name, hsrv sv hsv, serverBindingFor_key sv.name,
        serverBindingFor_server_tag sv.name, serverBindingFor_lifecycle_tag sv.name⟩

/-- Controller class for the component witnesses. -/
def greetController : ControllerClass := ⟨"GreetController"⟩

/-- Server class for the component witnesses. -/
def restServer : ServerClass := ⟨"RestServer"⟩

/-- A well-behaved component class exposing the lifecycle capability, declaring
one controller and one server. -/
def goodComponent : ComponentClass :=
  ⟨"GoodComponent", true, .ok ⟨[greetController], [restServer]⟩⟩

/-- The registry produced by mounting `goodComponent` into an empty registry. -/
def goodComponentResult : List Binding :=
  [componentBindingFor goodComponent "GoodComponent",
   controllerBindingFor "GreetController",
   serverBindingFor "RestServer"]

/-- C6 witness: mounting `goodComponent` into the empty registry registers the
component binding with the claimed key, scope and tags. -/
theorem component_registration_witness :
    ∃ b ∈ goodComponentResult, b.key = "components.GoodComponent" ∧
      b.scope = BindingScope.singleton ∧
      (b.tagValue COMPONENT_TAG).isSome = true ∧
      ((b.tagValue LIFE_CYCLE_OBSERVER_TAG).isSome = true ↔
        goodComponent.isLifeCycleObserverClass = true) :=
  (component_registration [] goodComponent none goodComponentResult (by decide)).1

theorem servers_forall2 {ctors : List ServerClass} :
    ∀ {bs : List Binding} {q : List Binding × List Binding},
      Application.servers bs ctors = .ok q →
      List.Forall₂ (fun ct (b2 : Binding) => b2.key = "servers." ++ ct.name ∧
        (b2.tagValue SERVER_TAG).isSome = true ∧
        (b2.tagValue LIFE_CYCLE_OBSERVER_TAG).isSome = true) ctors q.2 := by
  induction ctors with
  | nil =>
    intro bs q h
    cases Except.ok.inj h
    exact List.Forall₂.nil
  | cons ct rest ih =>
    intro bs q h
    unfold Application.servers at h
    cases hs : Application.server bs ct none with
    | error e => rw [hs] at h; exact Except.noConfusion h
    | ok r =>
      rw [hs] at h
      dsimp only at h
      cases hrr : Application.servers r.1 rest with
      | error e => rw [hrr] at h; exact Except.noConfusion h
      | ok rr =>
        rw [hrr] at h
        cases Except.ok.inj h
        have hr := server_ok hs
        refine List.Forall₂.cons ⟨?_, ?_, ?_⟩ (ih hrr)
        · rw [hr]; exact serverBindingFor_key ct.name
        · rw [hr]; exact serverBindingFor_server_tag ct.name
        · rw [hr]; exact serverBindingFor_lifecycle_tag ct.name

/-- C7: a successful `server(ctor, name?)` call returns the binding it created
under key `servers.<name or ctor.name>`, tagged "server" with the
lifecycle-observer wiring applied, appended to the registry; `servers(ctors)`
applies this registration to each constructor in order, keyed by each
constructor's class name, and returns the created bindings in the same order. -/
theorem server_registration (bs bs2 : List Binding) (ctor : ServerClass)
    (nm : Option String) (ctors : List ServerClass)
    (p : List Binding × Binding) (q : List Binding × List Binding) :
    (Application.server bs ctor nm = .ok p →
      p.2.key = "servers." ++ (nm.getD ctor.name) ∧
      (p.2.tagValue SERVER_TAG).isSome = true ∧
      (p.2.tagValue LIFE_CYCLE_OBSERVER_TAG).isSome = true ∧
      p.1 = bs ++ [p.2]) ∧
    (Application.servers bs2 ctors = .ok q →
      List.Forall₂ (fun ct (b2 : Binding) => b2.key = "servers." ++ ct.name ∧
        (b2.tagValue SERVER_TAG).isSome = true ∧
        (b2.tagValue LIFE_CYCLE_OBSERVER_TAG).isSome = true) ctors q.2) := by
  constructor
  · intro h
    have hp := server_ok h
    refine ⟨?_, ?_, ?_, ?_⟩
    · rw [hp]; exact serverBindingFor_key _
    · rw [hp]; exact serverBindingFor_server_tag _
    · rw [hp]; exact serverBindingFor_lifecycle_tag _
    · rw [hp]
  · exact servers_forall2

/-- C7 witness: registering `RestServer` then the two-element list
`[RestServer, GRPCServer]` yields bindings with the derived keys in order. -/
theorem server_registration_witness :
    ((serverBindingFor "RestServer").tagValue SERVER_TAG).isSome = true ∧
    List.Forall₂ (fun ct (b2 : Binding) => b2.key = "servers." ++ ct.name ∧
      (b2.tagValue SERVER_TAG).isSome = true ∧
      (b2.tagValue LIFE_CYCLE_OBSERVER_TAG).isSome = true)
      [restServer, ⟨"GRPCServer"⟩]
      [serverBindingFor "RestServer", serverBindingFor "GRPCServer"] := by
  have h := server_registration [] [] restServer none [restServer, ⟨"GRPCServer"⟩]
    ([serverBindingFor "RestServer"], serverBindingFor "RestServer")
    ([serverBindingFor "RestServer", serverBindingFor "GRPCServer"],
     [serverBindingFor "RestServer", serverBindingFor "GRPCServer"])
  exact ⟨(h.1 (by decide)).2.1, h.2 (by decide)⟩

/-- C8: mounting a component twice with the same derived key fails with the
duplicate-key error; after two successful mounts with distinct derived keys,
both component bindings appear in a `find()` query for the component tag;
mounting fails when component construction throws (the error propagating
unchanged, given the component key itself is fresh); and mounting fails when a
declared artifact's key collides with an existing binding. -/
theorem component_mount_failure_modes (app app1 app2 : List Binding)
    (c1 c2 : ComponentClass) (n1 n2 : Option String) (e : String)
    (desc : ComponentDescriptor) :
    (Application.component app c1 n1 = .ok app1 →
      Application.component app1 c1 n1 =
        .error (duplicateKeyError ("components." ++ (n1.getD c1.name)))) ∧
    (Application.component app c1 n1 = .ok app1 →
      Application.component app1 c2 n2 = .ok app2 →
      (∃ b ∈ Context.find app2 (fun b => (b.tagValue COMPONENT_TAG).isSome),
        b.key = "components." ++ (n1.getD c1.name)) ∧
      (∃ b ∈ Context.find app2 (fun b => (b.tagValue COMPONENT_TAG).isSome),
        b.key = "components." ++ (n2.getD c2.name))) ∧
    (c1.construct = .error e →
      (∀ x ∈ app, x.key ≠ "components." ++ (n1.getD c1.name)) →
      Application.component app c1 n1 = .error e) ∧
    (c1.construct = .ok desc →
      ((∃ ct ∈ desc.controllers, ∃ x ∈ app, x.key = "controllers." ++ ct.name) ∨
        (∃ sv ∈ desc.servers, ∃ x ∈ app, x.key = "servers." ++ sv.name)) →
      ∃ e2, Application.component app c1 n1 = .error e2) := by
  refine ⟨?_, ?_, ?_, ?_⟩
  · intro h1
    rcases component_parts h1 with ⟨d1, hcon1, hmount1⟩
    rcases mountComponent_ok hmount1 with ⟨hmono1, _, _⟩
    have hmem : componentBindingFor c1 (n1.getD c1.name) ∈ app1 :=
      hmono1 _ (List.mem_append_right _ (List.mem_singleton_self _))
    have hbn := bindNew_error_of_key hmem rfl
    unfold Application.component
    rw [hbn]
    rfl
  · intro h1 h2
    rcases component_parts h1 with ⟨d1, hcon1, hmount1⟩
    rcases mountComponent_ok hmount1 with ⟨hmono1, _, _⟩
    have hmem1 : componentBindingFor c1 (n1.getD c1.name) ∈ app1 :=
      hmono1 _ (List.mem_append_right _ (List.mem_singleton_self _))
    rcases component_parts h2 with ⟨d2, hcon2, hmount2⟩
    rcases mountComponent_ok hmount2 with ⟨hmono2, _, _⟩
    have hmem1' : componentBindingFor c1 (n1.getD c1.name) ∈ app2 :=
      hmono2 _ (List.mem_append_left _ hmem1)
    have hmem2 : componentBindingFor c2 (n2.getD c2.name) ∈ app2 :=
      hmono2 _ (List.mem_append_right _ (List.mem_singleton_self _))
    constructor
    · exact ⟨componentBindingFor c1 (n1.getD c1.name),
        List.mem_filter.mpr ⟨hmem1', componentBindingFor_component_tag _ _⟩,
        componentBindingFor_key _ _⟩
    · exact ⟨componentBindingFor c2 (n2.getD c2.name),
        List.mem_filter.mpr ⟨hmem2, componentBindingFor_component_tag _ _⟩,
        componentBindingFor_key _ _⟩
  · intro hcon hfresh
    have hfresh' : ∀ x ∈ app, x.key ≠ (componentBindingFor c1 (n1.getD c1.name)).key := by
      intro x hx
      rw [componentBindingFor_key]
      exact hfresh x hx
    unfold Application.component
    rw [bindNew_ok_of_fresh hfresh']
    dsimp only
    rw [hcon]
  · intro hcon hcol
    cases hb : bindNew app (componentBindingFor c1 (n1.getD c1.name)) with
    | error e2 => exact ⟨e2, by unfold Application.component; rw [hb]⟩
    | ok bs1 =>
      cases bindNew_ok hb
      have hcol' :
          (∃ ct ∈ desc.controllers,
            ∃ x ∈ app ++ [componentBindingFor c1 (n1.getD c1.name)],
              x.key = "controllers." ++ ct.name) ∨
          (∃ sv ∈ desc.servers,
            ∃ x ∈ app ++ [componentBindingFor c1 (n1.getD c1.name)],
              x.key = "servers." ++ sv.name) := by
        rcases hcol with ⟨ct, hct, x, hx, hk⟩ | ⟨sv, hsv, x, hx, hk⟩
        · exact Or.inl ⟨ct, hct, x, List.mem_append_left _ hx, hk⟩
        · exact Or.inr ⟨sv, hsv, x, List.mem_append_left _ hx, hk⟩
      rcases mountComponent_collide hcol' with ⟨e2, he2⟩
      refine ⟨e2, ?_⟩
      unfold Application.component
      rw [hb]
      dsimp only
      rw [hcon]
      exact he2

/-- A second component class with a distinct name, no lifecycle capability and
no declared artifacts. -/
def otherComponent : ComponentClass := ⟨"OtherComponent", false, .ok ⟨[], []⟩⟩

/-- A component class whose synchronous construction throws. -/
def badComponent : ComponentClass := ⟨"BadComponent", false, .error "constructor threw"⟩

/-- The registry after mounting `goodComponent` and then `otherComponent`. -/
def twoComponentsResult : List Binding :=
  goodComponentResult ++ [componentBindingFor otherComponent "OtherComponent"]

/-- A registry already holding the key `servers.RestServer`, colliding with the
server artifact `goodComponent` declares. -/
def serverCollisionRegistry : List Binding := [serverBindingFor "RestServer"]

/-- C8 witness: the four failure/success modes at concrete registries. -/
theorem component_mount_failure_modes_witness :
    Application.component goodComponentResult goodComponent none =
      .error (duplicateKeyError "components.GoodComponent") ∧
    (∃ b ∈ Context.find twoComponentsResult
        (fun b => (b.tagValue COMPONENT_TAG).isSome),
      b.key = "components.GoodComponent") ∧
    (∃ b ∈ Context.find twoComponentsResult
        (fun b => (b.tagValue COMPONENT_TAG).isSome),
      b.key = "components.OtherComponent") ∧
    Application.component [] badComponent none = .error "constructor threw" ∧
    ∃ e2, Application.component serverCollisionRegistry goodComponent none =
      .error e2 := by
  have hgood := component_mount_failure_modes [] goodComponentResult twoComponentsResult
    goodComponent otherComponent none none "unused" ⟨[greetController], [restServer]⟩
  have hbad := component_mount_failure_modes [] [] [] badComponent badComponent none none
    "constructor threw" ⟨[], []⟩
  have hcol := component_mount_failure_modes serverCollisionRegistry [] []
    goodComponent goodComponent none none "unused" ⟨[greetController], [restServer]⟩
  have hfind := hgood.2.1 (by decide) (by decide)
  exact ⟨hgood.1 (by decide), hfind.1, hfind.2,
    hbad.2.2.1 rfl (by decide),
    hcol.2.2.2 rfl (Or.inr ⟨restServer, by decide, serverBindingFor "RestServer",
      by decide, rfl⟩)⟩

/-- C9: `migrate(args)` requests a destructive schema rebuild — passing the
drop-and-recreate option as true to `migrateSchema` — iff `args` contains the
exact string `--rebuild`, and otherwise requests a data-preserving update
(option false); this holds for both variants of the script (the
`{dropExistingSchema}` and the `{rebuild}` options record), whose logged mode
agrees with the option. -/
theorem migrate_rebuild_iff (args : List String) :
    ((migrateV1 args).2.dropExistingSchema = true ↔ "--rebuild" ∈ args) ∧
    ((migrateV2 args).2.rebuild = true ↔ "--rebuild" ∈ args) ∧
    (migrateV1 args).1 = (if "--rebuild" ∈ args then "rebuild" else "update") ∧
    (migrateV2 args).1 = (if "--rebuild" ∈ args then "rebuild" else "update") := by
  by_cases hmem : "--rebuild" ∈ args
  · have hb : args.contains "--rebuild" = true := by
      simp [List.contains]
      exact hmem
    simp [migrateV1, migrateV2, hb, hmem]
  · have hb : args.contains "--rebuild" = false := by
      simp [List.contains]
      exact hmem
    simp [migrateV1, migrateV2, hb, hmem]

/-- C9 witness: with `--rebuild` among the arguments the first variant requests
a rebuild; without it the second variant requests a data-preserving update. -/
theorem migrate_rebuild_iff_witness :
    (migrateV1 ["node", "migrate", "--rebuild"]).2.dropExistingSchema = true ∧
    (migrateV2 ["node", "migrate"]).2.rebuild = false := by
  constructor
  · exact (migrate_rebuild_iff ["node", "migrate", "--rebuild"]).1.mpr (by decide)
  · have h := (migrate_rebuild_iff ["node", "migrate"]).2.1
    have hnot : ¬("--rebuild" ∈ ["node", "migrate"]) := by decide
    exact Bool.eq_false_iff.mpr (fun ht => hnot (h.mp ht))

/-- C10: `isMigrateableRepository(repo)` returns true iff the value's
`migrateSchema` property is a function, regardless of whether any other part of
the repository interface is implemented (the result depends only on that one
property); and on `null` or `undefined` it throws a `TypeError` — the property
access itself fails — rather than returning false. -/
theorem isMigrateableRepository_spec (props : List (String × JSValue)) :
    (isMigrateableRepository (.jsObject props) = .ok true ↔
      ∃ n, props.lookup "migrateSchema" = some (.jsFunction n)) ∧
    (∀ v, isMigrateableRepository (.jsObject props) = .ok v →
      v = typeofIsFunction ((props.lookup "migrateSchema").getD .jsUndefined)) ∧
    (∃ msg, isMigrateableRepository .jsNull = .error msg) ∧
    (∃ msg, isMigrateableRepository .jsUndefined = .error msg) := by
  refine ⟨?_, ?_, ⟨_, rfl⟩, ⟨_, rfl⟩⟩
  · unfold isMigrateableRepository getProperty
    cases hl : props.lookup "migrateSchema" with
    | none => simp [Except.map, typeofIsFunction, hl]
    | some v => cases v <;> simp [Except.map, typeofIsFunction, hl]
  · intro v hv
    unfold isMigrateableRepository getProperty at hv
    simp only [Except.map] at hv
    exact (Except.ok.inj hv).symm

/-- C10 witness: an object whose `migrateSchema` is a function passes the
guard; `null` makes the guard throw instead of returning false. -/
theorem isMigrateableRepository_spec_witness :
    isMigrateableRepository (.jsObject [("migrateSchema", .jsFunction 0)]) = .ok true ∧
    ∃ msg, isMigrateableRepository .jsNull = .error msg :=
  ⟨(isMigrateableRepository_spec [("migrateSchema", .jsFunction 0)]).1.mpr ⟨0, rfl⟩,
   (isMigrateableRepository_spec []).2.2.1⟩
